import Mathlib

/-!
Verification of the dogmatic-views caching and two-pass rendering pipeline
(src/index.js) against its natural-language specification.

The embedding sequentializes the promise-based control flow of the source:
each exported operation becomes a function from an explicit cache state to a
result record carrying the resolved value (`none` models a rejected promise),
the updated cache state, and counters for the underlying reads and
compression calls performed.  External capabilities (the file system,
`zlib.gzip`, `path.join`, the jade render and handlebars compile functions)
are parameters of the operations.
-/

namespace DogmaticViews

/-- Byte buffers (Node `Buffer` contents) are modelled as lists of naturals. -/
abbrev Bytes := List Nat

/-- Association-list lookup, modelling JavaScript object property access
`m[name]` on the plain-object caches of the source. -/
def lookupKV {α : Type} : List (String × α) → String → Option α
  | [], _ => none
  | (k, v) :: rest, n => if k = n then some v else lookupKV rest n

/-- Association-list update, modelling property assignment `m[name] = e`. -/
def setKV {α : Type} : List (String × α) → String → α → List (String × α)
  | [], n, e => [(n, e)]
  | (k, v) :: rest, n, e =>
      if k = n then (n, e) :: rest else (k, v) :: setKV rest n e

/-! ### Node `path.extname` (posix), used by `addExtension` (src/index.js:118-120)

A direct port of Node's scanner: it walks the string from the right, skipping
trailing content after recording `endIdx`, stopping at the first separator
that follows a non-separator character, and tracking the last dot seen
(`startDot`) together with `preDotState` which distinguishes "only dots so
far" from "a non-dot character occurs left of the dot". -/

structure ExtScan where
  startDot : Int
  startPart : Int
  endIdx : Int
  matchedSlash : Bool
  preDotState : Int
deriving Repr, DecidableEq

/-- One iteration of Node's `extname` loop at index `i`; the second component
is true when the loop breaks (separator after a non-separator). -/
def extnameAt (s : List Char) (i : Nat) (st : ExtScan) : ExtScan × Bool :=
  let c := s.getD i ' '
  if c = '/' then
    if st.matchedSlash then (st, false)
    else ({ st with startPart := (i : Int) + 1 }, true)
  else
    let st1 :=
      if st.endIdx = -1 then { st with matchedSlash := false, endIdx := (i : Int) + 1 }
      else st
    let st2 :=
      if c = '.' then
        (if st1.startDot = -1 then { st1 with startDot := (i : Int) }
         else if st1.preDotState ≠ 1 then { st1 with preDotState := 1 }
         else st1)
      else if st1.startDot ≠ -1 then { st1 with preDotState := -1 }
      else st1
    (st2, false)

/-- Runs the `extname` scan from index `i` down to 0. -/
def extnameLoop (s : List Char) : Nat → ExtScan → ExtScan
  | 0, st => (extnameAt s 0 st).1
  | i + 1, st =>
      let p := extnameAt s (i + 1) st
      if p.2 then p.1 else extnameLoop s i p.1

/-- Substring of `s` from character index `a` (inclusive) to `b` (exclusive). -/
def strSlice (s : String) (a b : Int) : String :=
  String.mk ((s.data.drop a.toNat).take (b - a).toNat)

/-- Node `path.extname` for posix paths. -/
def extname (p : String) : String :=
  let s := p.data
  let st0 : ExtScan := ⟨-1, 0, -1, true, 0⟩
  let st := if s.length = 0 then st0 else extnameLoop s (s.length - 1) st0
  if st.startDot = -1 || st.endIdx = -1 || st.preDotState = 0 ||
      (st.preDotState = 1 && st.startDot = st.endIdx - 1 &&
        st.startDot = st.startPart + 1)
  then ""
  else strSlice p st.startDot st.endIdx

/-- `addExtension` (src/index.js:118-120): append `"." + ext` exactly when the
name has no extension. -/
def addExtension (name ext : String) : String :=
  if extname name ≠ "" then name else name ++ "." ++ ext

/-- The initial value of the `__engFirst` configuration global
(src/index.js:68): the default first-pass engine identifier. -/
def engFirstDefault : String := "jade"

/-- The cache key both template operations compute from a logical name
(src/index.js:320 and 359): the name with the enforced default extension. -/
def jadeKey (name : String) : String := addExtension name "jade"

/-! ### `hasPath` / `makePath` (src/index.js:88-105)

The source builds its test from the string literal `"^\.?\.?" + path.sep`.
In a JavaScript string literal `"\."` denotes the plain character `"."`, so
the regular expression actually compiled is `^.?.?/` (posix separator): each
`.` is the regex wildcard matching any character except a line terminator,
not a literal dot.  The pattern therefore accepts any string having a
separator at index 0, 1 or 2, with arbitrary non-terminator characters
before it. -/

/-- Characters matched by the regex wildcard `.` (no line terminators). -/
def isRegexDot (c : Char) : Bool :=
  c ≠ '\n' && c ≠ '\r' && c ≠ '\u2028' && c ≠ '\u2029'

/-- Whether `^.?.?/` can match with the two optional wildcards consuming
exactly the first `k` characters. -/
def pathREMatchAt (s : List Char) (k : Nat) : Bool :=
  (s.take k).all isRegexDot && (s.getD k ' ' == '/')

/-- `hasPath` (src/index.js:90-92): the compiled `pathRE` test. -/
def hasPath (name : String) : Bool :=
  pathREMatchAt name.data 0 || pathREMatchAt name.data 1 || pathREMatchAt name.data 2

/-- `makePath` (src/index.js:103-105).  `pj` is the external `path.join`
capability, applied to the configured root, a base-directory offset, and the
name, in source order `path.join(__dirroot, dir, name)`. -/
def makePath (pj : String → String → String → String) (dirroot name dir : String) :
    String :=
  if hasPath name then name else pj dirroot dir name

/-- Modelled from the spec: the passthrough condition as the specification
words it, a name beginning with a path-separator-rooted or relative-dot
string ("/", "./", "../").  Declared only to compare with the
source-derived `hasPath`. -/
def specPathLike (s : String) : Bool :=
  s.data.take 1 == "/".data || s.data.take 2 == "./".data || s.data.take 3 == "../".data

/-! ### Options normalization (src/index.js:233-235 and 315-317)

Both operations replace a non-object `options` argument by `{}` before
merging defaults, so booleans (and `undefined`) collapse to the defaults.
JavaScript objects may carry each recognized property or omit it, hence the
`Option Bool` fields. -/

/-- Effective options of `Views.file` after defaulting. -/
structure FileOpts where
  cache : Bool
  zip : Bool
deriving Repr, DecidableEq

/-- The `options` argument of `Views.file` as supplied by a caller. -/
inductive FileOptArg where
  | fundef
  | fbool (b : Bool)
  | fobj (cache? zip? : Option Bool)
deriving Repr, DecidableEq

/-- src/index.js:233-235: a non-object argument becomes `{}`, then
`assign({ cache : true, zip : true }, options)`. -/
def normalizeFileOpts : FileOptArg → FileOpts
  | .fobj c z => ⟨c.getD true, z.getD true⟩
  | _ => ⟨true, true⟩

/-- The `options` argument of `Views.jade` as supplied by a caller. -/
inductive JadeOptArg where
  | jundef
  | jbool (b : Bool)
  | jobj (cache? : Option Bool)
deriving Repr, DecidableEq

/-- src/index.js:315-317: a non-object argument becomes `{}`, then
`assign({ cache : true }, options)`; the result's only field is `cache`. -/
def normalizeJadeOpts : JadeOptArg → Bool
  | .jobj c => c.getD true
  | _ => true

/-! ### `Views.file` (src/index.js:229-273) -/

/-- One entry of the module-level `files` cache: the raw bytes under `std`
and the lazily derived gzipped bytes under `zip`; either property may be
absent on a plain JavaScript object, hence both are `Option`. -/
structure FileEntry where
  std : Option Bytes
  zip : Option Bytes
deriving Repr, DecidableEq

abbrev FileCache := List (String × FileEntry)

/-- Outcome of one `Views.file` call: the resolved bytes (`none` for a
rejected promise), the `files` cache afterwards, and how many underlying
`readFile` and `zlib.gzip` invocations the call performed. -/
structure FileResult where
  res : Option Bytes
  files : FileCache
  reads : Nat
  zips : Nat
deriving Repr, DecidableEq

/-- The read-and-store path of `Views.file` (src/index.js:253-271): read the
file, gzip it when `zip` is requested, store both representations as a fresh
entry when `cache` is requested, and resolve to the requested
representation. -/
def fileMiss (fs : String → Option Bytes) (gz : Bytes → Bytes) (o : FileOpts)
    (name : String) (files : FileCache) : FileResult :=
  match fs name with
  | none => ⟨none, files, 1, 0⟩
  | some content =>
      let files' :=
        if o.cache then
          setKV files name ⟨some content, if o.zip then some (gz content) else none⟩
        else files
      ⟨some (if o.zip then gz content else content), files',
        1, if o.zip then 1 else 0⟩

/-- `Views.file` (src/index.js:231-273), sequentialized.  When the cache is
globally enabled and an entry exists, the requested representation is served
directly if present; otherwise the source starts
`zip(files[name].std).tap(...)`, which adds the derived `zip` representation
to the existing entry, but — lacking a `return` — control still falls
through to the fresh read-and-store path, whose effects follow. -/
def fileRun (cflag : Bool) (fs : String → Option Bytes) (gz : Bytes → Bytes)
    (name : String) (arg : FileOptArg) (files : FileCache) : FileResult :=
  let o := normalizeFileOpts arg
  match lookupKV files name, cflag with
  | some e, true =>
      match (if o.zip then e.zip else e.std) with
      | some v => ⟨some v, files, 0, 0⟩
      | none =>
          match e.std with
          | some b =>
              let r := fileMiss fs gz o name
                (setKV files name ⟨some b, some (gz b)⟩)
              { r with zips := r.zips + 1 }
          | none => fileMiss fs gz o name files
  | _, _ => fileMiss fs gz o name files

/-! ### The shared `templates` cache and the two render operations
(src/index.js:293-374)

`Views.jade` and `Views.handlebars` live in one closure over a single
`templates` object.  A stored value is either a first-pass rendered HTML
string or a second-pass compiled function (type parameter `F`); the
`.buf` constructor records that `Views.handlebars`' direct `.html` read
yields a `Buffer`, not a decoded string. -/

inductive TVal (F : Type) where
  | str (s : String)
  | buf (s : String)
  | fn (f : F)
deriving Repr, DecidableEq

abbrev TplCache (F : Type) := List (String × TVal F)

/-- Outcome of one template-pipeline call: resolved value (`none` for a
rejected promise), the `templates` cache afterwards, and the number of
underlying file reads performed. -/
structure TplResult (F : Type) where
  res : Option (TVal F)
  tpls : TplCache F
  reads : Nat
deriving Repr, DecidableEq

/-- JavaScript truthiness of a cached template value, as tested by
`if (templates[name] && cache)`: the empty string is falsy, every object
(Buffer or function) is truthy. -/
def tvalTruthy {F : Type} : TVal F → Bool
  | .str s => s ≠ ""
  | .buf _ => true
  | .fn _ => true

/-- The read-and-render path of `Views.jade` (src/index.js:325-337): read the
resolved file, invoke the render capability `rnd` on the contents, the
caller's `vars` and the `filename` parameter, and store the HTML under `key`
when the `cache` option is set.  `key` already carries the enforced
extension. -/
def jadeFresh {V F : Type} (pj : String → String → String → String)
    (dirroot dirviews : String) (fsT : String → Option String)
    (rnd : String → V → String → Option String)
    (cOpt : Bool) (key : String) (vars : V) (tpls : TplCache F) : TplResult F :=
  let loc := makePath pj dirroot key dirviews
  match fsT loc with
  | none => ⟨none, tpls, 1⟩
  | some content =>
      match rnd content vars loc with
      | none => ⟨none, tpls, 1⟩
      | some html =>
          ⟨some (.str html), if cOpt then setKV tpls key (.str html) else tpls, 1⟩

/-- `Views.jade` (src/index.js:311-339), sequentialized.  With the global
cache flag on and a truthy entry under the extended name, that entry is
served with no read; otherwise the fresh path runs. -/
def jadeRun {V F : Type} (cflag : Bool) (pj : String → String → String → String)
    (dirroot dirviews : String) (fsT : String → Option String)
    (rnd : String → V → String → Option String)
    (name : String) (vars : V) (arg : JadeOptArg) (tpls : TplCache F) :
    TplResult F :=
  let cOpt := normalizeJadeOpts arg
  let key := jadeKey name
  match lookupKV tpls key with
  | some tv =>
      if cflag && tvalTruthy tv then ⟨some tv, tpls, 0⟩
      else jadeFresh pj dirroot dirviews fsT rnd cOpt key vars tpls
  | none => jadeFresh pj dirroot dirviews fsT rnd cOpt key vars tpls

/-- `Views.handlebars` (src/index.js:354-372), sequentialized.  The name gets
the enforced default extension; an `.html` name is read directly (as a
Buffer), any other name goes through `Views.jade` with the literal `false`
as its options argument; the compile capability `cmp` runs under `when.try`,
and on success the compiled function is stored under the same key in the
same `templates` cache. -/
def handlebarsRun {V F : Type} (cflag : Bool)
    (pj : String → String → String → String) (dirroot dirviews : String)
    (fsT : String → Option String) (rnd : String → V → String → Option String)
    (cmp : TVal F → Option F) (name : String) (vars : V) (tpls : TplCache F) :
    TplResult F :=
  let key := jadeKey name
  if extname key = ".html" then
    match fsT (makePath pj dirroot key dirviews) with
    | none => ⟨none, tpls, 1⟩
    | some content =>
        match cmp (.buf content) with
        | none => ⟨none, tpls, 1⟩
        | some f => ⟨some (.fn f), setKV tpls key (.fn f), 1⟩
  else
    let r := jadeRun cflag pj dirroot dirviews fsT rnd key vars (.jbool false) tpls
    match r.res with
    | none => ⟨none, r.tpls, r.reads⟩
    | some tv =>
        match cmp tv with
        | none => ⟨none, r.tpls, r.reads⟩
        | some f => ⟨some (.fn f), setKV r.tpls key (.fn f), r.reads⟩

/-! ### Call sequences over the file cache, for reachability invariants -/

/-- One `Views.file` call together with the environment it runs under. -/
structure FileOp where
  cflag : Bool
  fs : String → Option Bytes
  gz : Bytes → Bytes
  name : String
  arg : FileOptArg

/-- The `files` cache after a sequence of `Views.file` calls. -/
def runOps : List FileOp → FileCache → FileCache
  | [], s => s
  | op :: rest, s => runOps rest (fileRun op.cflag op.fs op.gz op.name op.arg s).files

/-! ### Concrete fixtures used by closed theorems and witnesses -/

/-- A concrete file system storing bytes `[7]` at path `"f"`. -/
def fsF : String → Option Bytes := fun s => if s = "f" then some ([7] : Bytes) else none

/-- A concrete always-failing file system. -/
def fsEmpty : String → Option Bytes := fun _ => none

/-- A concrete compression capability prepending the byte `9`. -/
def gzC : Bytes → Bytes := fun b => 9 :: b

/-- A concrete `path.join` capability joining with separators (no caller of
the passthrough branch depends on its normalization behaviour). -/
def pjC : String → String → String → String := fun a b c => a ++ "/" ++ b ++ "/" ++ c

/-- A concrete template-source file system: `"app.jade"` under the default
root and views directory holds the source `"h1 x"`. -/
def fsT1 : String → Option String :=
  fun s => if s = "/r/views/app.jade" then some "h1 x" else none

/-- A concrete render capability, returning fixed HTML for the fixture
source. -/
def rnd1 : String → Unit → String → Option String :=
  fun content _ _ => if content = "h1 x" then some "<h1>x</h1>" else none

/-- A concrete compile capability that always throws (models
`handlebars.compile` failing). -/
def cmpFail : TVal Unit → Option Unit := fun _ => none

/-- A concrete compile capability that succeeds on strings only, as the real
`handlebars.compile` does. -/
def cmpStr : TVal Unit → Option Unit :=
  fun tv => match tv with
  | .str _ => some ()
  | _ => none

/-- A concrete one-call sequence over the file cache. -/
def opsC : List FileOp := [⟨true, fsF, gzC, "f", FileOptArg.fundef⟩]

/-- The C10 invariant: every entry present in the `files` cache carries its
raw (`std`) representation. -/
def StdPresent (s : FileCache) : Prop :=
  ∀ n e, lookupKV s n = some e → e.std.isSome = true

/-! ### Sanity checks of the ports against Node/JavaScript behaviour -/

example : extname "app" = "" := by decide
example : extname "app.jade" = ".jade" := by decide
example : extname "x.html" = ".html" := by decide
example : extname ".bashrc" = "" := by decide
example : extname "a/b.c" = ".c" := by decide
example : extname "views/.x" = "" := by decide
example : extname "a.." = "." := by decide
example : extname ".." = "" := by decide
example : hasPath "/x" = true := by decide
example : hasPath "./x" = true := by decide
example : hasPath "../x" = true := by decide
example : hasPath "app" = false := by decide
example : hasPath "a/b" = true := by decide

/-! ### Helper lemmas about the association-list caches -/

theorem lookupKV_setKV {α : Type} (l : List (String × α)) (n m : String) (e : α) :
    lookupKV (setKV l n e) m = if n = m then some e else lookupKV l m := by
  induction l with
  | nil => simp [setKV, lookupKV]
  | cons kv rest ih =>
      obtain ⟨k, v⟩ := kv
      by_cases hk : k = n
      · subst hk
        by_cases hm : k = m
        · subst hm; simp [setKV, lookupKV]
        · simp [setKV, lookupKV, hm]
      · by_cases hm : k = m
        · subst hm
          have hn : ¬ n = k := fun h => hk h.symm
          simp [setKV, lookupKV, hk, hn]
        · simp [setKV, lookupKV, hk, hm, ih]

theorem lookupKV_setKV_self {α : Type} (l : List (String × α)) (n : String) (e : α) :
    lookupKV (setKV l n e) n = some e := by
  rw [lookupKV_setKV]; simp

/-! ### Claim theorems -/

/-- C1: the specification claims that requesting the compressed
representation, when the entry for the path holds only the raw one and
caching is enabled, invokes the compression capability exactly once and
performs no further underlying read.  The source's cached-raw branch lacks a
`return` (src/index.js:245), so evaluated at a state whose `files` entry for
`"f"` holds only raw bytes, the call performs one fresh underlying read and
two compression calls — one on the cached raw bytes, one on the re-read
bytes — although it does resolve to the derived compressed bytes and leaves
the entry holding both representations. -/
theorem C1_derived_zip_recomputes :
    (fileRun true fsF gzC "f" .fundef [("f", ⟨some [7], none⟩)]).reads = 1 ∧
    (fileRun true fsF gzC "f" .fundef [("f", ⟨some [7], none⟩)]).zips = 2 ∧
    (fileRun true fsF gzC "f" .fundef [("f", ⟨some [7], none⟩)]).res = some [9, 7] ∧
    (fileRun true fsF gzC "f" .fundef [("f", ⟨some [7], none⟩)]).files
      = [("f", ⟨some [7], some [9, 7]⟩)] := by decide

/-- C7: the specification claims a failing call leaves the cache unchanged.
Because the cached-raw branch starts its orphaned derivation before the
fresh read (src/index.js:245-248), a call that then fails its read — the
entry for `"f"` holds only raw bytes, the resource is gone from disk — still
adds the derived compressed representation to the existing entry: the call
rejects, yet the cache state differs from the initial one. -/
theorem C7_failed_call_updates_entry :
    (fileRun true fsEmpty gzC "f" .fundef [("f", ⟨some [7], none⟩)]).res = none ∧
    (fileRun true fsEmpty gzC "f" .fundef [("f", ⟨some [7], none⟩)]).files
      = [("f", ⟨some [7], some [9, 7]⟩)] ∧
    (fileRun true fsEmpty gzC "f" .fundef [("f", ⟨some [7], none⟩)]).files
      ≠ [("f", ⟨some [7], none⟩)] := by decide

/-- C3: the specification claims a name is returned unchanged exactly when it
begins with "/", "./" or "../".  The source's `pathRE` is compiled from a
string in which `"\."` collapses to the wildcard `.`, so the name `"a/b"` —
which begins with none of the three prefixes and should be joined under the
root and base directory — is nevertheless passed through unchanged. -/
theorem C3_passthrough_divergence :
    specPathLike "a/b" = false ∧ hasPath "a/b" = true ∧
    makePath pjC "/r" "a/b" "views" = "a/b" ∧
    pjC "/r" "views" "a/b" = "/r/views/a/b" := by decide

/-- C2: the specification claims the second-pass renderer obtains its HTML
via the first-pass renderer with caching off, so the first-pass string is
never stored under its own key during that call.  The source passes the
boolean `false` as the options argument (src/index.js:362), which the
normalization of src/index.js:316-317 replaces by the defaults
`{ cache : true }`; the first-pass HTML therefore is stored under its own
key, and when the second-pass compile fails it remains there as the final
cache state. -/
theorem C2_first_pass_is_cached :
    normalizeJadeOpts (.jbool false) = true ∧
    (handlebarsRun true pjC "/r" "views" fsT1 rnd1 cmpFail "app" () []).res = none ∧
    (handlebarsRun true pjC "/r" "views" fsT1 rnd1 cmpFail "app" () []).tpls
      = [("app.jade", TVal.str "<h1>x</h1>")] := by decide

/-- C8: a logical name with no extension resolves, in the first-pass
renderer, to the name with "." and the configured first-pass engine's
default extension ("jade") appended, while a name that already has an
extension is left unchanged. -/
theorem C8_extension_inference (name : String) :
    jadeKey name =
      if extname name = "" then name ++ "." ++ engFirstDefault else name := by
  unfold jadeKey addExtension engFirstDefault
  by_cases h : extname name = "" <;> simp [h]

/-- C9: a non-object options argument (a bare boolean or `undefined`) is
replaced wholesale by the defaults — `{ cache : true, zip : true }` for the
file accessor, `{ cache : true }` for the first-pass renderer — so a bare
boolean has no effect at all on either operation's behaviour. -/
theorem C9_non_object_options_defaulted (b : Bool) :
    normalizeFileOpts (.fbool b) = ⟨true, true⟩ ∧
    normalizeFileOpts .fundef = ⟨true, true⟩ ∧
    normalizeJadeOpts (.jbool b) = true ∧
    normalizeJadeOpts .jundef = true ∧
    (∀ (cflag : Bool) (fs : String → Option Bytes) (gz : Bytes → Bytes)
        (name : String) (files : FileCache),
      fileRun cflag fs gz name (.fbool b) files
        = fileRun cflag fs gz name .fundef files) ∧
    (∀ (V F : Type) (cflag : Bool) (pj : String → String → String → String)
        (dirroot dirviews : String) (fsT : String → Option String)
        (rnd : String → V → String → Option String) (name : String) (vars : V)
        (tpls : TplCache F),
      jadeRun cflag pj dirroot dirviews fsT rnd name vars (.jbool b) tpls
        = jadeRun cflag pj dirroot dirviews fsT rnd name vars .jundef tpls) := by
  refine ⟨rfl, rfl, rfl, rfl, ?_, ?_⟩
  · intro cflag fs gz name files; rfl
  · intro V F cflag pj dirroot dirviews fsT rnd name vars tpls; rfl

/-! ### Behavioural lemmas about `fileRun`, feeding C5 and C6 -/

theorem fileRun_cflag_off (fs : String → Option Bytes) (gz : Bytes → Bytes)
    (name : String) (arg : FileOptArg) (t : FileCache) :
    fileRun false fs gz name arg t = fileMiss fs gz (normalizeFileOpts arg) name t := by
  unfold fileRun
  cases h : lookupKV t name <;> simp [h]

theorem fileMiss_reads (fs : String → Option Bytes) (gz : Bytes → Bytes)
    (o : FileOpts) (name : String) (t : FileCache) :
    (fileMiss fs gz o name t).reads = 1 := by
  unfold fileMiss
  cases h : fs name <;> simp [h]

theorem fileMiss_res_state_free (fs : String → Option Bytes) (gz : Bytes → Bytes)
    (o : FileOpts) (name : String) (t t' : FileCache) :
    (fileMiss fs gz o name t).res = (fileMiss fs gz o name t').res := by
  unfold fileMiss
  cases h : fs name <;> simp [h]

theorem fileMiss_store (fs : String → Option Bytes) (gz : Bytes → Bytes)
    (o : FileOpts) (name : String) (t : FileCache) (b : Bytes)
    (hfs : fs name = some b) (hc : o.cache = true) :
    fileMiss fs gz o name t =
      ⟨some (if o.zip then gz b else b),
       setKV t name ⟨some b, if o.zip then some (gz b) else none⟩,
       1, if o.zip then 1 else 0⟩ := by
  unfold fileMiss
  rw [hfs]
  simp [hc]

theorem fileRun_hit (fs : String → Option Bytes) (gz : Bytes → Bytes)
    (name : String) (arg : FileOptArg) (t : FileCache) (e : FileEntry) (v : Bytes)
    (hl : lookupKV t name = some e)
    (hv : (if (normalizeFileOpts arg).zip then e.zip else e.std) = some v) :
    fileRun true fs gz name arg t = ⟨some v, t, 0, 0⟩ := by
  simp [fileRun, hl, hv]

theorem fileRun_after_miss_hit (fs : String → Option Bytes) (gz : Bytes → Bytes)
    (name : String) (arg : FileOptArg) (t : FileCache) (b : Bytes)
    (hfs : fs name = some b) (hc : (normalizeFileOpts arg).cache = true) :
    fileRun true fs gz name arg (fileMiss fs gz (normalizeFileOpts arg) name t).files
      = ⟨(fileMiss fs gz (normalizeFileOpts arg) name t).res,
         (fileMiss fs gz (normalizeFileOpts arg) name t).files, 0, 0⟩ := by
  rw [fileMiss_store fs gz _ name t b hfs hc]
  by_cases hz : (normalizeFileOpts arg).zip = true
  · exact fileRun_hit fs gz name arg _ _ _ (lookupKV_setKV_self _ _ _) (by simp [hz])
  · have hz' : (normalizeFileOpts arg).zip = false := by
      cases h : (normalizeFileOpts arg).zip
      · rfl
      · exact absurd h hz
    exact fileRun_hit fs gz name arg _ _ _ (lookupKV_setKV_self _ _ _) (by simp [hz'])

theorem fileRun_stale_entry (fs : String → Option Bytes) (gz : Bytes → Bytes)
    (name : String) (arg : FileOptArg) (s : FileCache) (e : FileEntry) (c : Bytes)
    (hl : lookupKV s name = some e)
    (hq : (if (normalizeFileOpts arg).zip then e.zip else e.std) = none)
    (hstd : e.std = some c) :
    fileRun true fs gz name arg s =
      { fileMiss fs gz (normalizeFileOpts arg) name
          (setKV s name ⟨some c, some (gz c)⟩) with
        zips := (fileMiss fs gz (normalizeFileOpts arg) name
          (setKV s name ⟨some c, some (gz c)⟩)).zips + 1 } := by
  by_cases hz : (normalizeFileOpts arg).zip = true
  · rw [if_pos hz] at hq
    simp [fileRun, hl, hq, hstd, hz]
  · rw [if_neg hz] at hq
    rw [hstd] at hq
    exact Option.noConfusion hq

theorem fileRun_miss_then (fs : String → Option Bytes) (gz : Bytes → Bytes)
    (name : String) (arg : FileOptArg) (t : FileCache) (b : Bytes)
    (hfs : fs name = some b) (hc : (normalizeFileOpts arg).cache = true) :
    (fileMiss fs gz (normalizeFileOpts arg) name t).reads
        + (fileRun true fs gz name arg
            (fileMiss fs gz (normalizeFileOpts arg) name t).files).reads ≤ 1 ∧
    (fileMiss fs gz (normalizeFileOpts arg) name t).res
        = (fileRun true fs gz name arg
            (fileMiss fs gz (normalizeFileOpts arg) name t).files).res ∧
    (fileMiss fs gz (normalizeFileOpts arg) name t).res.isSome = true := by
  rw [fileRun_after_miss_hit fs gz name arg t b hfs hc]
  rw [fileMiss_store fs gz _ name t b hfs hc]
  exact ⟨by simp, rfl, rfl⟩

/-- C6: with the process-wide cache flag disabled, every `Views.file` lookup
behaves as an unconditional miss: each call performs exactly one underlying
read whatever the cache holds, and the resolved value does not depend on the
cache state, so no call's result is ever served from cache to a later
call. -/
theorem C6_cache_disabled_bypass (fs : String → Option Bytes) (gz : Bytes → Bytes)
    (name : String) (arg : FileOptArg) (s s' : FileCache) :
    (fileRun false fs gz name arg s).reads = 1 ∧
    (fileRun false fs gz name arg s).res = (fileRun false fs gz name arg s').res := by
  constructor
  · rw [fileRun_cflag_off]
    exact fileMiss_reads fs gz _ name s
  · rw [fileRun_cflag_off, fileRun_cflag_off]
    exact fileMiss_res_state_free fs gz _ name s s'

/-- C5: with caching enabled (global flag on and the `cache` option set) and
the resource readable, two consecutive `Views.file` calls for the same path
perform at most one underlying read between them, resolve to identical
bytes, and both succeed. -/
theorem C5_idempotence (fs : String → Option Bytes) (gz : Bytes → Bytes)
    (name : String) (arg : FileOptArg) (s : FileCache) (b : Bytes)
    (hfs : fs name = some b) (hc : (normalizeFileOpts arg).cache = true) :
    (fileRun true fs gz name arg s).reads
        + (fileRun true fs gz name arg (fileRun true fs gz name arg s).files).reads ≤ 1 ∧
    (fileRun true fs gz name arg s).res
        = (fileRun true fs gz name arg (fileRun true fs gz name arg s).files).res ∧
    (fileRun true fs gz name arg s).res.isSome = true := by
  cases hl : lookupKV s name with
  | none =>
      have h1 : fileRun true fs gz name arg s
          = fileMiss fs gz (normalizeFileOpts arg) name s := by
        simp [fileRun, hl]
      rw [h1]
      exact fileRun_miss_then fs gz name arg s b hfs hc
  | some e =>
      cases hq : (if (normalizeFileOpts arg).zip then e.zip else e.std) with
      | some v =>
          have h1 : fileRun true fs gz name arg s = ⟨some v, s, 0, 0⟩ :=
            fileRun_hit fs gz name arg s e v hl hq
          refine ⟨?_, ?_, ?_⟩ <;> simp [h1]
      | none =>
          cases hstd : e.std with
          | some c =>
              have h1 := fileRun_stale_entry fs gz name arg s e c hl hq hstd
              rw [h1]
              exact fileRun_miss_then fs gz name arg
                (setKV s name ⟨some c, some (gz c)⟩) b hfs hc
          | none =>
              have h1 : fileRun true fs gz name arg s
                  = fileMiss fs gz (normalizeFileOpts arg) name s := by
                simp only [fileRun, hl]
                rw [hq]
                simp [hstd]
              rw [h1]
              exact fileRun_miss_then fs gz name arg s b hfs hc

/-- C5 witness: the idempotence theorem evaluated at the concrete fixture
file system, starting from the empty cache with default options. -/
theorem C5_idempotence_witness :
    fsF "f" = some [7] ∧ (normalizeFileOpts .fundef).cache = true ∧
    ((fileRun true fsF gzC "f" .fundef []).reads
        + (fileRun true fsF gzC "f" .fundef
            (fileRun true fsF gzC "f" .fundef []).files).reads ≤ 1 ∧
     (fileRun true fsF gzC "f" .fundef []).res
        = (fileRun true fsF gzC "f" .fundef
            (fileRun true fsF gzC "f" .fundef []).files).res ∧
     (fileRun true fsF gzC "f" .fundef []).res.isSome = true) :=
  ⟨by decide, by decide, C5_idempotence fsF gzC "f" .fundef [] [7] (by decide) (by decide)⟩

/-- C4: first-pass rendered strings and second-pass compiled functions share
the one `templates` mapping, keyed by the name with the enforced default
extension: a successful second-pass call ends with its compiled function
stored at that key, overwriting whatever was there before (in particular a
first-pass string), and a first-pass call that resolves to a rendered string
with the `cache` option set ends with that string at the very same key,
overwriting whatever was there before (in particular a compiled
function). -/
theorem C4_shared_template_namespace {V F : Type} (cflag : Bool)
    (pj : String → String → String → String) (dirroot dirviews : String)
    (fsT : String → Option String) (rnd : String → V → String → Option String)
    (cmp : TVal F → Option F) (name : String) (vars : V) (arg : JadeOptArg)
    (tpls : TplCache F) :
    (∀ f : F,
      (handlebarsRun cflag pj dirroot dirviews fsT rnd cmp name vars tpls).res
          = some (.fn f) →
      lookupKV (handlebarsRun cflag pj dirroot dirviews fsT rnd cmp name vars
          tpls).tpls (jadeKey name) = some (.fn f)) ∧
    (∀ h : String,
      normalizeJadeOpts arg = true →
      (jadeRun cflag pj dirroot dirviews fsT rnd name vars arg tpls).res
          = some (.str h) →
      lookupKV (jadeRun cflag pj dirroot dirviews fsT rnd name vars arg
          tpls).tpls (jadeKey name) = some (.str h)) := by
  constructor
  · intro f
    unfold handlebarsRun
    dsimp only
    split
    · split
      · simp
      · split
        · simp
        · intro hres
          simp_all [lookupKV_setKV_self]
    · split
      · simp
      · split
        · simp
        · intro hres
          simp_all [lookupKV_setKV_self]
  · intro h hcache
    unfold jadeRun jadeFresh
    dsimp only
    simp only [hcache, if_true]
    split
    · split
      · intro hres
        simp_all
      · split
        · simp
        · split
          · simp
          · intro hres
            simp_all [lookupKV_setKV_self]
    · split
      · simp
      · split
        · simp
        · intro hres
          simp_all [lookupKV_setKV_self]

/-- C4 witness: at the concrete fixtures, the second-pass call leaves its
compiled function under the extended key, and the first-pass call leaves its
rendered string under the same extended key. -/
theorem C4_shared_template_namespace_witness :
    lookupKV (handlebarsRun true pjC "/r" "views" fsT1 rnd1 cmpStr "app" ()
        []).tpls (jadeKey "app") = some (.fn ()) ∧
    lookupKV (@jadeRun Unit Unit true pjC "/r" "views" fsT1 rnd1 "app" () .jundef
        []).tpls (jadeKey "app") = some (.str "<h1>x</h1>") :=
  ⟨(C4_shared_template_namespace true pjC "/r" "views" fsT1 rnd1 cmpStr "app" ()
      .jundef []).1 () (by decide),
   (C4_shared_template_namespace true pjC "/r" "views" fsT1 rnd1 cmpStr "app" ()
      .jundef []).2 "<h1>x</h1>" (by decide) (by decide)⟩

/-! ### Preservation lemmas feeding C10 -/

theorem StdPresent_setKV {s : FileCache} (hs : StdPresent s) (name : String)
    {e : FileEntry} (he : e.std.isSome = true) : StdPresent (setKV s name e) := by
  intro n e' hn
  rw [lookupKV_setKV] at hn
  by_cases h : name = n
  · rw [if_pos h] at hn
    cases hn
    exact he
  · rw [if_neg h] at hn
    exact hs n e' hn

theorem fileMiss_files (fs : String → Option Bytes) (gz : Bytes → Bytes)
    (o : FileOpts) (name : String) (s : FileCache) :
    (fileMiss fs gz o name s).files
      = match fs name with
        | none => s
        | some c =>
            if o.cache then
              setKV s name ⟨some c, if o.zip then some (gz c) else none⟩
            else s := by
  unfold fileMiss
  cases fs name <;> rfl

theorem fileMiss_StdPresent (fs : String → Option Bytes) (gz : Bytes → Bytes)
    (o : FileOpts) (name : String) {s : FileCache} (hs : StdPresent s) :
    StdPresent (fileMiss fs gz o name s).files := by
  rw [fileMiss_files]
  cases hf : fs name with
  | none => exact hs
  | some c =>
      dsimp only
      by_cases hco : o.cache = true
      · rw [if_pos hco]
        exact StdPresent_setKV hs name rfl
      · rw [if_neg hco]
        exact hs

theorem fileRun_StdPresent (cflag : Bool) (fs : String → Option Bytes)
    (gz : Bytes → Bytes) (name : String) (arg : FileOptArg) {s : FileCache}
    (hs : StdPresent s) : StdPresent (fileRun cflag fs gz name arg s).files := by
  cases cflag with
  | false =>
      rw [fileRun_cflag_off]
      exact fileMiss_StdPresent _ _ _ _ hs
  | true =>
      simp only [fileRun]
      cases hl : lookupKV s name with
      | none => exact fileMiss_StdPresent _ _ _ _ hs
      | some e =>
          dsimp only
          cases hq : (if (normalizeFileOpts arg).zip then e.zip else e.std) with
          | some v => exact hs
          | none =>
              dsimp only
              cases hstd : e.std with
              | some b =>
                  exact fileMiss_StdPresent _ _ _ _
                    (StdPresent_setKV hs name rfl)
              | none => exact fileMiss_StdPresent _ _ _ _ hs

theorem runOps_StdPresent (ops : List FileOp) {s : FileCache}
    (hs : StdPresent s) : StdPresent (runOps ops s) := by
  induction ops generalizing s with
  | nil => exact hs
  | cons op rest ih => exact ih (fileRun_StdPresent _ _ _ _ _ hs)

/-- C10: in every cache state reachable from the empty `files` cache by any
sequence of `Views.file` calls — any flag, file system, compression
capability, path and options per call — every entry present holds its raw
(`std`) representation; only the compressed representation may be absent,
and no reachable state has an entry with `zip` but not `std`. -/
theorem C10_raw_always_present (ops : List FileOp) (name : String)
    (e : FileEntry) (h : lookupKV (runOps ops []) name = some e) :
    e.std.isSome = true :=
  runOps_StdPresent ops (fun n e' he => by simp [lookupKV] at he) name e h

/-- C10 witness: one concrete call populates an entry, and the invariant
theorem applies to it. -/
theorem C10_raw_always_present_witness :
    lookupKV (runOps opsC []) "f" = some ⟨some [7], some [9, 7]⟩ ∧
    (FileEntry.mk (some [7]) (some [9, 7])).std.isSome = true :=
  ⟨by decide, C10_raw_always_present opsC "f" ⟨some [7], some [9, 7]⟩ (by decide)⟩

end DogmaticViews
